import Mathlib

/-!
Verification of the MCQ-generation pipeline of `src/MCQenerator/src/App.tsx`.

Text is modelled as `List Char`.  JavaScript's `Math.random()`-driven
choices are modelled by explicit natural-number parameters: a call
`Math.floor(Math.random() * n)` on a nonempty collection becomes `pick % n`,
which ranges over exactly the indices the original can produce; indexing an
empty array (which yields `undefined` in JavaScript) becomes `none`, and the
string coercion of `undefined` (as produced by template literals and by
`String.prototype.includes`) becomes the literal string `"undefined"`.
-/

/-- Difficulty tier (`type Difficulty` in the source). -/
inductive Difficulty
| easy
| medium
| hard
deriving DecidableEq, Repr

/-- Cognitive level (`type CognitiveLevel` in the source). -/
inductive CognitiveLevel
| remember
| understand
| apply
| analyze
deriving DecidableEq, Repr

/-- Question type: the closed key set of `questionPatterns` in the source
(`definition | cause-effect | comparison | sequencing | scenario`). -/
inductive QuestionType
| definition
| causeEffect
| comparison
| sequencing
| scenario
deriving DecidableEq, Repr

/-- `interface TextEntities` from the source. -/
structure TextEntities where
  processes : List (List Char)
  structures : List (List Char)
  concepts : List (List Char)
  relationships : List (List Char × List Char)
deriving DecidableEq, Repr

/-- `interface MCQOption` from the source. -/
structure MCQOption where
  id : List Char
  text : List Char
  isCorrect : Bool
deriving DecidableEq, Repr

/-- `interface MCQuestion` from the source.  `explanation` and
`selectedOption` are optional fields (`?:` in TypeScript), hence `Option`. -/
structure MCQuestion where
  id : List Char
  question : List Char
  options : List MCQOption
  explanation : Option (List Char)
  selectedOption : Option (List Char)
  cognitiveLevel : CognitiveLevel
  type : QuestionType
  sourceReference : List Char
deriving DecidableEq, Repr

/-- JavaScript `\s` restricted to the ASCII whitespace characters
(space, tab, newline, carriage return, vertical tab, form feed). -/
def isSpaceJS (c : Char) : Bool :=
  c = ' ' || c = '\t' || c = '\n' || c = '\r' || c = '\x0b' || c = '\x0c'

/-- ASCII `String.prototype.toLowerCase` on a single character. -/
def toLowerCh (c : Char) : Char :=
  if 'A' ≤ c && c ≤ 'Z' then Char.ofNat (c.toNat + 32) else c

/-- ASCII `String.prototype.toLowerCase`. -/
def toLowerStr (s : List Char) : List Char := s.map toLowerCh

/-- JavaScript `String.prototype.trim` (ASCII whitespace model). -/
def trimChars (s : List Char) : List Char :=
  ((s.dropWhile isSpaceJS).reverse.dropWhile isSpaceJS).reverse

/-- JavaScript `String.prototype.includes`: `needle` occurs as a contiguous
substring of `hay`. -/
def containsSub : List Char → List Char → Bool
  | hay, needle =>
    if needle.isPrefixOf hay then true
    else
      match hay with
      | [] => false
      | _ :: t => containsSub t needle

/-- Case-insensitive literal match: if the lowercase pattern `pat` matches
the front of `s` (comparing `toLowerCh` of each char of `s`), return the
remainder of `s` after the match. -/
def ciStrip : List Char → List Char → Option (List Char)
  | [], s => some s
  | _ :: _, [] => none
  | p :: ps, c :: cs => if toLowerCh c = p then ciStrip ps cs else none

/-- Whether the lowercase pattern `pat` matches case-insensitively at the
front of `s`. -/
def ciStartsWith (pat s : List Char) : Bool := (ciStrip pat s).isSome

/-- Split on occurrences of the two-character separator `"\n\n"`, scanning
left to right without overlap — JavaScript `text.split(/\n\n/)`. -/
def splitParas : List Char → List (List Char)
  | [] => [[]]
  | '\n' :: '\n' :: rest => [] :: splitParas rest
  | c :: rest =>
    match splitParas rest with
    | r :: rs => (c :: r) :: rs
    | [] => [[c]]

/-- Sentence-boundary characters of the source's `/[.!?]+/` regex. -/
def isSentencePunct (c : Char) : Bool := c = '.' || c = '!' || c = '?'

/-- Worker for `splitPunct`; the fuel argument only serves termination and
is always at least the length of the remaining input. -/
def splitPunctAux : Nat → List Char → List Char → List (List Char)
  | 0, _, acc => [acc.reverse]
  | _, [], acc => [acc.reverse]
  | fuel + 1, c :: rest, acc =>
    if isSentencePunct c then
      acc.reverse :: splitPunctAux fuel (rest.dropWhile isSentencePunct) []
    else
      splitPunctAux fuel rest (c :: acc)

/-- JavaScript `s.split(/[.!?]+/)`: split on maximal runs of `.`, `!`, `?`. -/
def splitPunct (s : List Char) : List (List Char) :=
  splitPunctAux (s.length + 1) s []

/-- First-occurrence-preserving deduplication, as performed by
`[...new Set(xs)]` in the source. -/
def dedupAux : List (List Char) → List (List Char) → List (List Char)
  | [], _ => []
  | x :: rest, seen =>
    if x ∈ seen then dedupAux rest seen else x :: dedupAux rest (x :: seen)

/-- JavaScript `[...new Set(xs)]`. -/
def dedupChars (xs : List (List Char)) : List (List Char) := dedupAux xs []

/-- Character class `[a-z\s]` under the `i` flag: an ASCII letter (either
case) or whitespace.  This is the capture class of the three entity
extraction regexes. -/
def isWordSpace (c : Char) : Bool :=
  ('a' ≤ c && c ≤ 'z') || ('A' ≤ c && c ≤ 'Z') || isSpaceJS c

/-- Cue phrases of `processPatterns` (lowercase; the regexes carry the `i`
flag). -/
def processCues : List (List Char) :=
  ["process of ".data, "steps in ".data, "stages of ".data, "cycle of ".data,
   "mechanism of ".data]

/-- Cue phrases of `structurePatterns`. -/
def structureCues : List (List Char) :=
  ["structure of ".data, "composed of ".data, "made up of ".data,
   "contains ".data, "within ".data]

/-- Cue phrases of `conceptPatterns`. -/
def conceptCues : List (List Char) :=
  ["concept of ".data, "principle of ".data, "theory of ".data, "law of ".data,
   "definition of ".data]

/-- Try the cue alternatives in order at the current position; on a match
return the remaining input after the cue.  (No two cue phrases of any one
pattern can match at the same position, so first-match order is exact.) -/
def matchCueAt (cues : List (List Char)) (s : List Char) : Option (List Char) :=
  cues.findSome? (fun cue => ciStrip cue s)

/-- Worker for `scanCaptures`: the left-to-right scan of
`text.matchAll(pattern)` for a pattern of the form
`(?:cue1 |cue2 |...)([a-z\s]+)` with flags `gi`.  At each position, if a cue
matches and the greedy `[a-z\s]+` capture that follows is nonempty, the
capture is recorded and scanning resumes after the whole match; otherwise
the scan advances one character.  Fuel only serves termination and always
dominates the remaining input length. -/
def scanCapturesAux (cues : List (List Char)) : Nat → List Char → List (List Char)
  | 0, _ => []
  | _, [] => []
  | fuel + 1, c :: rest =>
    match matchCueAt cues (c :: rest) with
    | some after =>
      let cap := after.takeWhile isWordSpace
      if cap = [] then scanCapturesAux cues fuel rest
      else cap :: scanCapturesAux cues fuel (after.dropWhile isWordSpace)
    | none => scanCapturesAux cues fuel rest

/-- All capture groups of `text.matchAll(pattern)` for one cue family. -/
def scanCaptures (cues : List (List Char)) (s : List Char) : List (List Char) :=
  scanCapturesAux cues s.length s

/-- Cue phrases of the relationship regex
`/(?:compared to|differs from|versus|vs\.|unlike)\s+([^,\.]+)/i`. -/
def comparisonCues : List (List Char) :=
  ["compared to".data, "differs from".data, "versus".data, "vs.".data,
   "unlike".data]

/-- Character class `[^,\.]`. -/
def notCommaDot (c : Char) : Bool := !(c = ',' || c = '.')

/-- Attempt the relationship pattern at the current position: a comparison
cue, then `\s+`, then the capture `([^,\.]+)`.  When the maximal whitespace
run is followed directly by `,` or `.`, the regex engine backtracks `\s+` by
one character and the capture is that single whitespace character. -/
def compMatchAt (s : List Char) : Option (List Char) :=
  match matchCueAt comparisonCues s with
  | none => none
  | some after =>
    let w := after.takeWhile isSpaceJS
    if w = [] then none
    else
      let cap := (after.dropWhile isSpaceJS).takeWhile notCommaDot
      if cap ≠ [] then some cap
      else if 2 ≤ w.length then some [w.getLastD ' ']
      else none

/-- Leftmost match of the relationship pattern in a sentence
(`sentence.match(...)` without the `g` flag): returns the capture group. -/
def compMatchAux : List Char → Option (List Char)
  | [] => none
  | c :: rest =>
    match compMatchAt (c :: rest) with
    | some cap => some cap
    | none => compMatchAux rest

/-- The capture group of the sentence's comparison match, if any. -/
def compMatch (s : List Char) : Option (List Char) := compMatchAux s

/-- Attempt the separator `/\s+(?:and|or)\s+/` (case-sensitive) at the
current position, returning the remainder after the separator. -/
def matchAndOrAt (s : List Char) : Option (List Char) :=
  if s.takeWhile isSpaceJS = [] then none
  else
    let r := s.dropWhile isSpaceJS
    let afterKw :=
      match "and".data.isPrefixOf r, "or".data.isPrefixOf r with
      | true, _ => some (r.drop 3)
      | false, true => some (r.drop 2)
      | false, false => none
    match afterKw with
    | none => none
    | some r2 =>
      if r2.takeWhile isSpaceJS = [] then none
      else some (r2.dropWhile isSpaceJS)

/-- Worker for `splitAndOr`, with termination fuel. -/
def splitAndOrAux : Nat → List Char → List Char → List (List Char)
  | 0, acc, _ => [acc.reverse]
  | _, acc, [] => [acc.reverse]
  | fuel + 1, acc, c :: rest =>
    match matchAndOrAt (c :: rest) with
    | some r2 => acc.reverse :: splitAndOrAux fuel [] r2
    | none => splitAndOrAux fuel (c :: acc) rest

/-- JavaScript `captured.split(/\s+(?:and|or)\s+/)`. -/
def splitAndOr (s : List Char) : List (List Char) :=
  splitAndOrAux (s.length + 1) [] s

/-- Relationship extraction for one sentence (lines 107-115 of the source):
match the comparison pattern, split the capture on `and`/`or`, and record
the trimmed pair exactly when the split yields two terms. -/
def relationshipOf (sentence : List Char) : Option (List Char × List Char) :=
  match compMatch sentence with
  | none => none
  | some captured =>
    match splitAndOr captured with
    | [t1, t2] => some (trimChars t1, trimChars t2)
    | _ => none

/-- `extractEntities` (lines 91-123 of the source).  The locals `words` and
`stopWords` of the source are dead code (never read) and are omitted. -/
def extractEntities (text : List Char) : TextEntities :=
  let sentences := ((splitPunct text).map trimChars).filter (fun s => !s.isEmpty)
  let processes := (scanCaptures processCues text).map trimChars
  let structures := (scanCaptures structureCues text).map trimChars
  let concepts := (scanCaptures conceptCues text).map trimChars
  let relationships := sentences.filterMap relationshipOf
  { processes := dedupChars processes
    structures := dedupChars structures
    concepts := dedupChars concepts
    relationships := relationships }

/-- JavaScript random element selection
`xs[Math.floor(Math.random() * xs.length)]`: for a nonempty list the index
`pick % xs.length` ranges over exactly the indices the original expression
can produce; for the empty list the original evaluates to `undefined`,
modelled as `none`. -/
def jsChoice (pick : Nat) (xs : List α) : Option α :=
  xs.get? (pick % xs.length)

/-- JavaScript string coercion applied to a possibly-`undefined` value, as
performed by template literals and by the argument of
`String.prototype.includes`. -/
def jsStr : Option (List Char) → List Char
  | some s => s
  | none => "undefined".data

/-- Paragraph selection (line 131 of the source):
`text.split(/\n\n/)[paragraphNumber - 1] || text`.  Both an out-of-range
index (`undefined`) and an empty paragraph (falsy `""`) fall back to the
whole text. -/
def selectParagraph (text : List Char) (paragraphNumber : Nat) : List Char :=
  match (splitParas text).get? (paragraphNumber - 1) with
  | some p => if p = [] then text else p
  | none => text

/-- The causal-verb alternatives of the `cause-effect` branch (the regexes
carry the `i` flag). -/
def causalVerbs : List (List Char) :=
  ["causes".data, "results in".data, "leads to".data, "produces".data,
   "triggers".data]

/-- JavaScript `/(?:causes|results in|leads to|produces|triggers)/i.test(s)`. -/
def hasCausalVerb (s : List Char) : Bool :=
  causalVerbs.any (fun v => containsSub (toLowerStr s) v)

/-- JavaScript `s.split(/causes|results in|leads to|produces|triggers/i)[0]`:
the prefix of `s` before the leftmost case-insensitive causal-verb match
(the whole string when there is no match). -/
def splitCausalHead : List Char → List Char
  | [] => []
  | c :: rest =>
    if causalVerbs.any (fun v => ciStartsWith v (c :: rest)) then []
    else c :: splitCausalHead rest

/-- Result record of `generateContextualQuestion`. -/
structure SynthResult where
  question : List Char
  correctAnswer : List Char
  sourceReference : List Char
deriving DecidableEq, Repr

/-- `generateContextualQuestion` (lines 125-190 of the source).  `pick`
stands for the one `Math.random()` draw a branch may perform. -/
def generateContextualQuestion (type : QuestionType) (entities : TextEntities)
    (text : List Char) (paragraphNumber : Nat) (pick : Nat) : SynthResult :=
  let paragraph := selectParagraph text paragraphNumber
  match type with
  | .definition =>
    let concept := jsChoice pick entities.concepts
    let conceptSentence :=
      ((splitPunct paragraph).find?
        (fun s => containsSub (toLowerStr s) (jsStr concept))).getD []
    { question := "What is ".data ++ jsStr concept ++ "?".data
      correctAnswer := trimChars conceptSentence
      sourceReference := "Paragraph ".data ++ (Nat.repr paragraphNumber).data }
  | .comparison =>
    let rel := jsChoice pick entities.relationships
    let term1 := rel.map Prod.fst
    let term2 := rel.map Prod.snd
    let comparisonSentence :=
      ((splitPunct paragraph).find?
        (fun s => containsSub (toLowerStr s) (jsStr term1) &&
                  containsSub (toLowerStr s) (jsStr term2))).getD []
    { question := "How does ".data ++ jsStr term1 ++ " differ from ".data ++
        jsStr term2 ++ "?".data
      correctAnswer := trimChars comparisonSentence
      sourceReference := "Paragraph ".data ++ (Nat.repr paragraphNumber).data }
  | .sequencing =>
    let process := jsChoice pick entities.processes
    let processSentence :=
      ((splitPunct paragraph).find?
        (fun s => containsSub (toLowerStr s) (jsStr process))).getD []
    { question := "What is the correct sequence in ".data ++ jsStr process ++
        "?".data
      correctAnswer := trimChars processSentence
      sourceReference := "Paragraph ".data ++ (Nat.repr paragraphNumber).data }
  | .causeEffect =>
    let sentences := splitPunct paragraph
    let causeSentence := (sentences.find? hasCausalVerb).getD []
    { question := "What is the effect of ".data ++
        trimChars (splitCausalHead causeSentence) ++ "?".data
      correctAnswer := trimChars causeSentence
      sourceReference := "Paragraph ".data ++ (Nat.repr paragraphNumber).data }
  | .scenario =>
    let concept := jsChoice pick entities.concepts
    let conceptSentence :=
      ((splitPunct paragraph).find?
        (fun s => containsSub (toLowerStr s) (jsStr concept))).getD []
    { question := "Which scenario best demonstrates ".data ++ jsStr concept ++
        "?".data
      correctAnswer := trimChars conceptSentence
      sourceReference := "Paragraph ".data ++ (Nat.repr paragraphNumber).data }

/-- The difficulty-indexed generic distractor table (lines 219-223). -/
def difficultyDistractors : Difficulty → List (List Char)
  | .easy =>
    ["The process occurs in reverse".data, "No interaction takes place".data,
     "The structure is inactive".data]
  | .medium =>
    ["The relationship is indirect".data, "Multiple steps are skipped".data,
     "The effect is temporary".data]
  | .hard =>
    ["The mechanism is substrate-independent".data,
     "Regulation occurs at a different level".data,
     "The pathway is non-linear".data]

/-- The `while (distractors.length < 3)` fill loop (lines 218-226), pushing
`difficultyDistractors[difficulty][distractors.length]` each iteration.  The
loop runs at most three times, so fuel `3` is exact. -/
def fillDistractors (difficulty : Difficulty) : Nat → List (List Char) → List (List Char)
  | 0, ds => ds
  | fuel + 1, ds =>
    if ds.length < 3 then
      fillDistractors difficulty fuel
        (ds ++ [(difficultyDistractors difficulty).getD ds.length []])
    else ds

/-- `generatePlausibleDistractors` (lines 192-229 of the source). -/
def generatePlausibleDistractors (correctAnswer : List Char)
    (entities : TextEntities) (difficulty : Difficulty) : List (List Char) :=
  let ds : List (List Char) := []
  let ds := ds ++ (match entities.relationships with
    | (t1, t2) :: _ =>
      [t2 ++ " is responsible for ".data ++ t1 ++ "\x27s function".data]
    | [] => [])
  let ds := ds ++ (match entities.structures with
    | st :: _ => [st ++ " is involved in a different process".data]
    | [] => [])
  let ds := ds ++ (match entities.concepts with
    | c :: _ => [c ++ " operates independently of other processes".data]
    | [] => [])
  fillDistractors difficulty 3 ds

/-- Swap the elements at positions `i` and `j`, the effect of
`[a[i], a[j]] = [a[j], a[i]]` in the source's Fisher-Yates loop body. -/
def listSwap (l : List α) (i j : Nat) : List α :=
  match l.get? i, l.get? j with
  | some a, some b => (l.set i b).set j a
  | _, _ => l

/-- The Fisher-Yates loop of `shuffleArray`: iterations `i = n-1, ..., 1`,
each drawing `j = Math.floor(Math.random() * (i + 1))`, modelled as
`rnd i % (i + 1)`. -/
def fisherYatesAux (rnd : Nat → Nat) : Nat → List α → List α
  | 0, l => l
  | i + 1, l => fisherYatesAux rnd i (listSwap l (i + 1) (rnd (i + 1) % (i + 2)))

/-- `shuffleArray` (lines 82-89 of the source): Fisher-Yates on a copy. -/
def shuffleArray (rnd : Nat → Nat) (array : List α) : List α :=
  fisherYatesAux rnd (array.length - 1) array

/-- The fixed type list of the orchestrator (line 274). -/
def questionTypes : List QuestionType :=
  [.definition, .causeEffect, .comparison, .sequencing, .scenario]

/-- Cognitive level of a question type, from `questionPatterns[...].level`. -/
def questionLevel : QuestionType → CognitiveLevel
  | .definition => .remember
  | .causeEffect => .understand
  | .comparison => .analyze
  | .sequencing => .understand
  | .scenario => .apply

/-- Per-slot type and paragraph assignment of the orchestrator (lines
277-278): `questionTypes[i % questionTypes.length]` and
`Math.floor(i / questionTypes.length) + 1`. -/
def slotAssignment (i : Nat) : QuestionType × Nat :=
  (questionTypes.getD (i % questionTypes.length) .definition,
   i / questionTypes.length + 1)

/-- One iteration of the orchestrator loop (lines 276-310): synthesize,
skip when question or answer is blank, otherwise build distractor options,
shuffle, and assemble the question record.  `pickF i` is the synthesizer's
random draw for slot `i`; `shufF i` the shuffler's draws. -/
def buildSlot (entities : TextEntities) (text : List Char)
    (difficulty : Difficulty) (includeExplanations : Bool)
    (pickF : Nat → Nat) (shufF : Nat → Nat → Nat) (i : Nat) :
    Option MCQuestion :=
  let r := generateContextualQuestion (slotAssignment i).1 entities text
    (slotAssignment i).2 (pickF i)
  if r.question = [] ∨ r.correctAnswer = [] then none
  else
    let distractors := generatePlausibleDistractors r.correctAnswer entities difficulty
    let options := shuffleArray (shufF i)
      ({ id := "q".data ++ (Nat.repr (i + 1)).data ++ "_a".data
         text := r.correctAnswer, isCorrect := true } ::
       distractors.enum.map (fun jd =>
         { id := "q".data ++ (Nat.repr (i + 1)).data ++ "_".data ++
             [Char.ofNat (98 + jd.1)]
           text := jd.2, isCorrect := false }))
    some { id := "q".data ++ (Nat.repr (i + 1)).data
           question := r.question
           options := options
           explanation := if includeExplanations then
             some ("As stated in ".data ++ r.sourceReference ++ ": \"".data ++
               r.correctAnswer ++ "\"".data)
             else none
           selectedOption := none
           cognitiveLevel := questionLevel (slotAssignment i).1
           type := (slotAssignment i).1
           sourceReference := r.sourceReference }

/-- `generateMockQuestions` (lines 271-313 of the source): extract entities
once, then run the slot loop for `i = 0, ..., count-1`, keeping the
non-skipped question records in loop order. -/
def generateMockQuestions (text : List Char) (count : Nat)
    (difficulty : Difficulty) (includeExplanations : Bool)
    (pickF : Nat → Nat) (shufF : Nat → Nat → Nat) : List MCQuestion :=
  let entities := extractEntities text
  (List.range count).filterMap
    (buildSlot entities text difficulty includeExplanations pickF shufF)

/-! ## Helper lemmas -/

theorem listSwap_perm {α : Type u} (l : List α) (i j : Nat) :
    (listSwap l i j).Perm l := by
  classical
  rcases hi : l.get? i with _ | a <;> rcases hj : l.get? j with _ | b <;>
    simp only [listSwap, hi, hj] <;> try exact List.Perm.refl l
  rw [List.get?_eq_getElem?] at hi hj
  obtain ⟨hilt, hia⟩ := List.getElem?_eq_some.mp hi
  obtain ⟨hjlt, hjb⟩ := List.getElem?_eq_some.mp hj
  rw [List.perm_iff_count]
  intro x
  have hjlt2 : j < (l.set i b).length := by simpa using hjlt
  have hS1j : (l.set i b)[j] = b := by
    rw [List.getElem_set]
    split
    · rfl
    · exact hjb
  rw [List.count_set a x (l.set i b) j hjlt2, List.count_set b x l i hilt,
    hS1j, hia]
  have hax : a = x → 1 ≤ List.count x l := by
    intro h
    subst h
    exact Nat.one_le_iff_ne_zero.mpr
      (Nat.pos_iff_ne_zero.mp (List.count_pos_iff.mpr (hia ▸ List.getElem_mem hilt)))
  by_cases h1 : a = x <;> by_cases h2 : b = x
  · have := hax h1; simp [h1, h2]; omega
  · have := hax h1; simp [h1, h2]; omega
  · simp [h1, h2]
  · simp [h1, h2]

theorem fisherYatesAux_perm {α : Type u} (rnd : Nat → Nat) :
    ∀ (n : Nat) (l : List α), (fisherYatesAux rnd n l).Perm l := by
  intro n
  induction n with
  | zero => intro l; exact List.Perm.refl l
  | succ i ih =>
    intro l
    exact (ih _).trans (listSwap_perm l (i + 1) (rnd (i + 1) % (i + 2)))

theorem shuffleArray_perm {α : Type u} (rnd : Nat → Nat) (l : List α) :
    (shuffleArray rnd l).Perm l :=
  fisherYatesAux_perm rnd (l.length - 1) l

theorem fillDistractors_length (d : Difficulty) :
    ∀ (fuel : Nat) (ds : List (List Char)), ds.length ≤ 3 →
      3 ≤ ds.length + fuel → (fillDistractors d fuel ds).length = 3 := by
  intro fuel
  induction fuel with
  | zero =>
    intro ds h1 h2
    simp only [fillDistractors]
    omega
  | succ n ih =>
    intro ds h1 h2
    simp only [fillDistractors]
    split
    · next h =>
      have := ih (ds ++ [(difficultyDistractors d).getD ds.length []])
        (by simp; omega) (by simp; omega)
      simpa using this
    · next h => omega

theorem generatePlausibleDistractors_length (ca : List Char)
    (e : TextEntities) (d : Difficulty) :
    (generatePlausibleDistractors ca e d).length = 3 := by
  unfold generatePlausibleDistractors
  rcases e.relationships with _ | ⟨⟨t1, t2⟩, _⟩ <;>
    rcases e.structures with _ | ⟨st, _⟩ <;>
    rcases e.concepts with _ | ⟨c, _⟩ <;>
    exact fillDistractors_length _ 3 _ (by simp) (by simp)

theorem rtrim_isPrefix (p : Char → Bool) (l : List Char) :
    (l.reverse.dropWhile p).reverse <+: l := by
  have hsuf : l.reverse.dropWhile p <:+ l.reverse := List.dropWhile_suffix p
  exact List.reverse_suffix.mp (by simpa using hsuf)

theorem dropWhile_of_trimmed (s : List Char) :
    ((s.dropWhile isSpaceJS).reverse.dropWhile isSpaceJS).reverse.dropWhile isSpaceJS
      = ((s.dropWhile isSpaceJS).reverse.dropWhile isSpaceJS).reverse := by
  cases hX : ((s.dropWhile isSpaceJS).reverse.dropWhile isSpaceJS).reverse with
  | nil => simp [hX]
  | cons c t =>
    have hpre : c :: t <+: s.dropWhile isSpaceJS :=
      hX ▸ rtrim_isPrefix isSpaceJS (s.dropWhile isSpaceJS)
    obtain ⟨r, hr⟩ := hpre
    have hhead := List.head?_dropWhile_not isSpaceJS s
    rw [← hr] at hhead
    simp only [List.cons_append, List.head?_cons] at hhead
    simp [List.dropWhile_cons, hhead]

theorem trimChars_idem (s : List Char) : trimChars (trimChars s) = trimChars s := by
  show trimChars (((s.dropWhile isSpaceJS).reverse.dropWhile isSpaceJS).reverse)
      = ((s.dropWhile isSpaceJS).reverse.dropWhile isSpaceJS).reverse
  unfold trimChars
  rw [dropWhile_of_trimmed s, List.reverse_reverse, List.dropWhile_idempotent]

theorem trimChars_eq_nil {s : List Char} (h : trimChars s = []) :
    ∀ c ∈ s, isSpaceJS c = true := by
  unfold trimChars at h
  have h1 : (s.dropWhile isSpaceJS).reverse.dropWhile isSpaceJS = [] := by
    have := congrArg List.reverse h
    simpa using this
  have h2 := List.dropWhile_eq_nil_iff.mp h1
  intro c hc
  rw [← List.takeWhile_append_dropWhile isSpaceJS s] at hc
  rcases List.mem_append.mp hc with hIn | hIn
  · exact List.mem_takeWhile_imp hIn
  · exact h2 c (List.mem_reverse.mpr hIn)

theorem dedupAux_spec :
    ∀ (l seen : List (List Char)),
      (dedupAux l seen).Nodup ∧ ∀ x ∈ dedupAux l seen, x ∉ seen ∧ x ∈ l := by
  intro l
  induction l with
  | nil => intro seen; simp [dedupAux]
  | cons a t ih =>
    intro seen
    simp only [dedupAux]
    split
    · refine ⟨(ih seen).1, fun x hx => ?_⟩
      exact ⟨((ih seen).2 x hx).1, List.mem_cons_of_mem a ((ih seen).2 x hx).2⟩
    · next hna =>
      constructor
      · rw [List.nodup_cons]
        refine ⟨fun hmem => ?_, (ih (a :: seen)).1⟩
        exact ((ih (a :: seen)).2 a hmem).1 (List.mem_cons_self a seen)
      · intro x hx
        rcases List.mem_cons.mp hx with rfl | hx'
        · exact ⟨hna, List.mem_cons_self x t⟩
        · have := (ih (a :: seen)).2 x hx'
          exact ⟨fun hm => this.1 (List.mem_cons_of_mem a hm),
            List.mem_cons_of_mem a this.2⟩

theorem dedupChars_nodup (xs : List (List Char)) : (dedupChars xs).Nodup :=
  (dedupAux_spec xs []).1

theorem mem_dedupChars {xs : List (List Char)} {x : List Char}
    (h : x ∈ dedupChars xs) : x ∈ xs :=
  ((dedupAux_spec xs []).2 x h).2

theorem dedup_map_trim_trimmed (xs : List (List Char)) :
    ∀ x ∈ dedupChars (xs.map trimChars), trimChars x = x := by
  intro x hx
  obtain ⟨y, _, rfl⟩ := List.mem_map.mp (mem_dedupChars hx)
  exact trimChars_idem y

theorem containsSub_subset :
    ∀ {hay needle : List Char}, containsSub hay needle = true →
      ∀ c ∈ needle, c ∈ hay := by
  intro hay
  induction hay with
  | nil =>
    intro needle h
    rw [containsSub] at h
    split at h
    · next hp =>
      have := List.isPrefixOf_iff_prefix.mp hp
      rw [List.prefix_nil.mp this]
      simp
    · simp at h
  | cons a t ih =>
    intro needle h
    rw [containsSub] at h
    split at h
    · next hp =>
      exact fun c hc => (List.isPrefixOf_iff_prefix.mp hp).subset hc
    · exact fun c hc => List.mem_cons_of_mem a (ih h c hc)

theorem toLowerCh_space {c : Char} (h : isSpaceJS c = true) : toLowerCh c = c := by
  simp only [isSpaceJS, Bool.or_eq_true, decide_eq_true_eq] at h
  rcases h with ((((h | h) | h) | h) | h) | h <;> subst h <;> decide

theorem all_space_no_letter {t : List Char}
    (hall : ∀ c ∈ t, isSpaceJS c = true) {c0 : Char}
    (h0 : isSpaceJS c0 = false) (hc : c0 ∈ toLowerStr t) : False := by
  obtain ⟨a, ha, hla⟩ := List.mem_map.mp hc
  have hsp := hall a ha
  rw [toLowerCh_space hsp] at hla
  rw [hla] at hsp
  rw [hsp] at h0
  exact absurd h0 (by simp)

theorem buildSlot_inv {entities : TextEntities} {text : List Char}
    {difficulty : Difficulty} {incl : Bool} {pickF : Nat → Nat}
    {shufF : Nat → Nat → Nat} {i : Nat} {q : MCQuestion}
    (h : buildSlot entities text difficulty incl pickF shufF i = some q) :
    ∃ r : SynthResult,
      r = generateContextualQuestion (slotAssignment i).1 entities text
        (slotAssignment i).2 (pickF i) ∧
      q.options = shuffleArray (shufF i)
        ({ id := "q".data ++ (Nat.repr (i + 1)).data ++ "_a".data
           text := r.correctAnswer, isCorrect := true } ::
         (generatePlausibleDistractors r.correctAnswer entities difficulty).enum.map
           (fun jd =>
             { id := "q".data ++ (Nat.repr (i + 1)).data ++ "_".data ++
                 [Char.ofNat (98 + jd.1)]
               text := jd.2, isCorrect := false })) ∧
      q.explanation = (if incl then
        some ("As stated in ".data ++ r.sourceReference ++ ": \"".data ++
          r.correctAnswer ++ "\"".data) else none) ∧
      q.sourceReference = r.sourceReference ∧
      q.type = (slotAssignment i).1 := by
  simp only [buildSlot] at h
  by_cases hcond :
      (generateContextualQuestion (slotAssignment i).1 entities text
        (slotAssignment i).2 (pickF i)).question = [] ∨
      (generateContextualQuestion (slotAssignment i).1 entities text
        (slotAssignment i).2 (pickF i)).correctAnswer = []
  · rw [if_pos hcond] at h
    exact absurd h (by simp)
  · rw [if_neg hcond] at h
    injection h with h'
    subst h'
    exact ⟨_, rfl, rfl, rfl, rfl, rfl⟩

theorem shuffled_options_spec (rnd : Nat → Nat) (co : MCQOption)
    (hco : co.isCorrect = true) (ds : List MCQOption) (hlen : ds.length = 3)
    (hds : ∀ o ∈ ds, o.isCorrect = false) :
    (shuffleArray rnd (co :: ds)).length = 4 ∧
    (shuffleArray rnd (co :: ds)).countP (fun o => o.isCorrect) = 1 := by
  have hperm := shuffleArray_perm rnd (co :: ds)
  constructor
  · rw [hperm.length_eq]
    simp [hlen]
  · rw [hperm.countP_eq, List.countP_cons]
    have hz : List.countP (fun o => o.isCorrect) ds = 0 :=
      List.countP_eq_zero.mpr (fun o ho => by simp [hds o ho])
    simp [hz, hco]

theorem mem_shuffled_correct (rnd : Nat → Nat) (co : MCQOption)
    (ds : List MCQOption) (hds : ∀ o ∈ ds, o.isCorrect = false)
    (o : MCQOption) (ho : o ∈ shuffleArray rnd (co :: ds))
    (hoc : o.isCorrect = true) : o = co := by
  have hmem := (shuffleArray_perm rnd (co :: ds)).mem_iff.mp ho
  rcases List.mem_cons.mp hmem with rfl | hmem'
  · rfl
  · exact absurd hoc (by simp [hds o hmem'])

/-! ## Claim theorems -/

/-- Claim C1: every Question returned by the orchestrator's generate has an
options list of exactly 4 entries, of which exactly one has
`isCorrect = true`, for every input text, count, difficulty, explanation
flag, and random source. -/
theorem c1_option_invariant (text : List Char) (count : Nat)
    (difficulty : Difficulty) (incl : Bool) (pickF : Nat → Nat)
    (shufF : Nat → Nat → Nat) (q : MCQuestion)
    (hq : q ∈ generateMockQuestions text count difficulty incl pickF shufF) :
    q.options.length = 4 ∧ q.options.countP (fun o => o.isCorrect) = 1 := by
  simp only [generateMockQuestions] at hq
  obtain ⟨i, _, hslot⟩ := List.mem_filterMap.mp hq
  obtain ⟨r, -, hopts, -, -, -⟩ := buildSlot_inv hslot
  rw [hopts]
  refine shuffled_options_spec _ _ rfl _ ?_ ?_
  · simp [generatePlausibleDistractors_length]
  · intro o ho
    obtain ⟨jd, -, rfl⟩ := List.mem_map.mp ho
    rfl

/-- Claim C2: `generateDistractors` returns exactly 3 strings for every
correct answer, entity set (including the all-empty one), and difficulty. -/
theorem c2_distractor_count (correctAnswer : List Char)
    (entities : TextEntities) (difficulty : Difficulty) :
    (generatePlausibleDistractors correctAnswer entities difficulty).length = 3 :=
  generatePlausibleDistractors_length correctAnswer entities difficulty

/-- Claim C4: the orchestrator assigns slot `i` the question type
`(definition, cause-effect, comparison, sequencing, scenario)[i mod 5]` and
paragraph index `i / 5 + 1`; for `count = 12` the pre-skip type sequence is
the stated one. -/
theorem c4_cyclic_assignment :
    (∀ i : Nat, slotAssignment i =
      ([QuestionType.definition, .causeEffect, .comparison, .sequencing,
        .scenario].getD (i % 5) .definition, i / 5 + 1)) ∧
    (List.range 12).map (fun i => (slotAssignment i).1) =
      [.definition, .causeEffect, .comparison, .sequencing, .scenario,
       .definition, .causeEffect, .comparison, .sequencing, .scenario,
       .definition, .causeEffect] :=
  ⟨fun _ => rfl, by decide⟩

/-- Claim C5: `shuffleArray` returns a permutation of its input (same
multiset of elements, hence same length) for every random source; as a pure
function of an explicit copy it cannot mutate its input. -/
theorem c5_shuffle_permutation (α : Type) (rnd : Nat → Nat) (l : List α) :
    (shuffleArray rnd l).Perm l ∧ (shuffleArray rnd l).length = l.length :=
  ⟨shuffleArray_perm rnd l, (shuffleArray_perm rnd l).length_eq⟩

/-- Claim C7 (code evaluation at the failing input): with an empty
`concepts` collection the definition branch does not short-circuit; it
indexes the empty array (JavaScript `undefined`), producing the non-blank
question `What is undefined?` with a blank correct answer, for every random
draw. -/
theorem c7_no_emptiness_guard (pick : Nat) :
    (generateContextualQuestion .definition ⟨[], [], [], []⟩ "Hello".data 1
      pick).question = "What is undefined?".data ∧
    (generateContextualQuestion .definition ⟨[], [], [], []⟩ "Hello".data 1
      pick).correctAnswer = [] := by
  have hchoice : jsChoice pick ([] : List (List Char)) = none :=
    List.get?_eq_none.mpr (by simp)
  constructor <;> simp [generateContextualQuestion, hchoice] <;> decide

/-- Claim C6: with `includeExplanations = false` no returned Question has an
explanation; with `true` every returned Question's explanation is
`As stated in {sourceReference}: "{correct option text}"`. -/
theorem c6_explanation_toggle (text : List Char) (count : Nat)
    (difficulty : Difficulty) (incl : Bool) (pickF : Nat → Nat)
    (shufF : Nat → Nat → Nat) (q : MCQuestion)
    (hq : q ∈ generateMockQuestions text count difficulty incl pickF shufF) :
    (incl = false → q.explanation = none) ∧
    (incl = true → ∀ o ∈ q.options, o.isCorrect = true →
      q.explanation = some ("As stated in ".data ++ q.sourceReference ++
        ": \"".data ++ o.text ++ "\"".data)) := by
  simp only [generateMockQuestions] at hq
  obtain ⟨i, -, hslot⟩ := List.mem_filterMap.mp hq
  obtain ⟨r, -, hopts, hexp, hsrc, -⟩ := buildSlot_inv hslot
  constructor
  · intro h
    subst h
    simpa using hexp
  · intro h o ho hoc
    subst h
    rw [hopts] at ho
    have hoeq := mem_shuffled_correct (shufF i) _ _
      (fun o' ho' => by
        obtain ⟨jd, -, rfl⟩ := List.mem_map.mp ho'
        rfl) o ho hoc
    rw [hoeq, hsrc]
    simpa using hexp

def helloText : List Char :=
  "Hello world. This is plain text with no markers.".data

theorem hello_selectParagraph (n : Nat) :
    selectParagraph helloText n = helloText := by
  unfold selectParagraph
  have hs : splitParas helloText = [helloText] := by decide
  rw [hs]
  match n with
  | 0 => simp
  | 1 => simp
  | k + 2 =>
    have : [helloText].get? (k + 1) = none := by
      rw [List.get?_eq_none]
      simp
    simp [this]

theorem hello_synth_empty (ty : QuestionType) (n pick : Nat) :
    (generateContextualQuestion ty ⟨[], [], [], []⟩ helloText n pick).correctAnswer
      = [] := by
  have hc1 : jsChoice pick ([] : List (List Char)) = none :=
    List.get?_eq_none.mpr (by simp)
  have hc2 : jsChoice pick ([] : List (List Char × List Char)) = none :=
    List.get?_eq_none.mpr (by simp)
  cases ty <;>
    simp only [generateContextualQuestion, hello_selectParagraph, hc1, hc2] <;>
    decide

theorem buildSlot_of_empty_answer {e : TextEntities} {text : List Char}
    {d : Difficulty} {incl : Bool} {pickF : Nat → Nat} {shufF : Nat → Nat → Nat}
    {i : Nat}
    (h : (generateContextualQuestion (slotAssignment i).1 e text
      (slotAssignment i).2 (pickF i)).correctAnswer = []) :
    buildSlot e text d incl pickF shufF i = none := by
  simp only [buildSlot]
  rw [if_pos (Or.inr h)]

/-- Claim C3: generate returns at most `count` questions; on the marker-free
text `Hello world. This is plain text with no markers.` every slot is
skipped without a placeholder and `generate(text, 10, medium, true)` is
empty, for every random source. -/
theorem c3_skip_behavior :
    (∀ (text : List Char) (count : Nat) (difficulty : Difficulty) (incl : Bool)
      (pickF : Nat → Nat) (shufF : Nat → Nat → Nat),
      (generateMockQuestions text count difficulty incl pickF shufF).length ≤ count) ∧
    (∀ (pickF : Nat → Nat) (shufF : Nat → Nat → Nat),
      generateMockQuestions helloText 10 .medium true pickF shufF = []) := by
  constructor
  · intro text count difficulty incl pickF shufF
    simp only [generateMockQuestions]
    calc (List.filterMap _ (List.range count)).length
        ≤ (List.range count).length := List.length_filterMap_le _ _
      _ = count := List.length_range count
  · intro pickF shufF
    have he : extractEntities helloText = ⟨[], [], [], []⟩ := by decide
    simp only [generateMockQuestions, he]
    rw [List.filterMap_eq_nil_iff]
    intro i _
    exact buildSlot_of_empty_answer (hello_synth_empty _ _ _)

/-- Claim C8 counterexample: on the input `process of \n2` the regex capture
is the single whitespace character `\n`, which trims to the empty string, so
the `processes` collection contains the empty phrase. -/
theorem c8_counterexample :
    [] ∈ (extractEntities "process of \n2".data).processes := by decide

/-- Claim C8 (amended): for every input text the `processes`, `structures`
and `concepts` collections are duplicate-free and every phrase is trimmed of
surrounding whitespace; (the no-empty-phrase part of the original claim is
dropped, as a capture consisting solely of whitespace trims to the empty
string). -/
theorem c8_entity_collections (text : List Char) :
    ((extractEntities text).processes.Nodup ∧
     (extractEntities text).structures.Nodup ∧
     (extractEntities text).concepts.Nodup) ∧
    ((extractEntities text).processes.all (fun p => trimChars p == p) = true ∧
     (extractEntities text).structures.all (fun p => trimChars p == p) = true ∧
     (extractEntities text).concepts.all (fun p => trimChars p == p) = true) := by
  refine ⟨⟨?_, ?_, ?_⟩, ?_, ?_, ?_⟩ <;>
    first
      | exact dedupChars_nodup _
      | (rw [List.all_eq_true]
         intro p hp
         simpa using dedup_map_trim_trimmed _ p hp)

/-- Claim C9: the cause-effect branch never consults the extracted entities
(nor the random draw); whenever the selected paragraph has a sentence
matching a causal verb, it returns a non-empty correctAnswer even for the
all-empty entity set. -/
theorem c9_cause_effect_entity_free (e e' : TextEntities) (text : List Char)
    (n pick pick' : Nat) :
    generateContextualQuestion .causeEffect e text n pick =
      generateContextualQuestion .causeEffect e' text n pick' ∧
    ((splitPunct (selectParagraph text n)).any hasCausalVerb = true →
      (generateContextualQuestion .causeEffect e text n pick).correctAnswer ≠ []) := by
  constructor
  · rfl
  · intro hany hnil
    obtain ⟨s, hs, hps⟩ := List.any_eq_true.mp hany
    have hsome : ((splitPunct (selectParagraph text n)).find? hasCausalVerb).isSome :=
      List.find?_isSome.mpr ⟨s, hs, hps⟩
    obtain ⟨t, ht⟩ := Option.isSome_iff_exists.mp hsome
    have hpt : hasCausalVerb t = true := List.find?_some ht
    have hca : (generateContextualQuestion .causeEffect e text n pick).correctAnswer
        = trimChars t := by
      simp only [generateContextualQuestion]
      rw [ht]
      rfl
    rw [hca] at hnil
    have hall := trimChars_eq_nil hnil
    obtain ⟨v, hv, hcv⟩ := List.any_eq_true.mp hpt
    have hsub := containsSub_subset hcv
    simp only [causalVerbs, List.mem_cons, List.not_mem_nil, or_false] at hv
    rcases hv with rfl | rfl | rfl | rfl | rfl
    · exact all_space_no_letter hall (show isSpaceJS 'c' = false by decide)
        (hsub 'c' (by decide))
    · exact all_space_no_letter hall (show isSpaceJS 'r' = false by decide)
        (hsub 'r' (by decide))
    · exact all_space_no_letter hall (show isSpaceJS 'l' = false by decide)
        (hsub 'l' (by decide))
    · exact all_space_no_letter hall (show isSpaceJS 'p' = false by decide)
        (hsub 'p' (by decide))
    · exact all_space_no_letter hall (show isSpaceJS 't' = false by decide)
        (hsub 't' (by decide))

/-- Claim C10: the output of `generateDistractors` does not depend on its
`correctAnswer` argument. -/
theorem c10_distractors_ignore_answer (ca ca' : List Char)
    (entities : TextEntities) (difficulty : Difficulty) :
    generatePlausibleDistractors ca entities difficulty =
      generatePlausibleDistractors ca' entities difficulty := rfl

/-! ## Concrete witnesses -/

/-- A sample input whose first slot (definition type) succeeds. -/
def conceptText : List Char :=
  "The concept of gravity pulls objects. Gravity causes motion.".data

/-- The generation run used by the witnesses: one slot, zero random source. -/
def sampleRun : List MCQuestion :=
  generateMockQuestions conceptText 1 .medium true (fun _ => 0) (fun _ _ => 0)

/-- Default question record for safe indexing in witness statements. -/
def blankQuestion : MCQuestion :=
  { id := [], question := [], options := [], explanation := none
    selectedOption := none, cognitiveLevel := .remember, type := .definition
    sourceReference := [] }

/-- Default option record for safe indexing in witness statements. -/
def blankOpt : MCQOption := { id := [], text := [], isCorrect := false }

/-- Witness for C1: the concrete question produced by `sampleRun` has 4
options, exactly one correct. -/
theorem c1_option_invariant_witness :
    (sampleRun.getD 0 blankQuestion).options.length = 4 ∧
    (sampleRun.getD 0 blankQuestion).options.countP (fun o => o.isCorrect) = 1 :=
  c1_option_invariant conceptText 1 .medium true (fun _ => 0) (fun _ _ => 0)
    (sampleRun.getD 0 blankQuestion) (by decide)

/-- Witness for C6: the concrete question's explanation is assembled from
its source reference and its correct option's text. -/
theorem c6_explanation_toggle_witness :
    (sampleRun.getD 0 blankQuestion).explanation =
      some ("As stated in ".data ++
        (sampleRun.getD 0 blankQuestion).sourceReference ++ ": \"".data ++
        ((sampleRun.getD 0 blankQuestion).options.getD 3 blankOpt).text ++
        "\"".data) :=
  (c6_explanation_toggle conceptText 1 .medium true (fun _ => 0) (fun _ _ => 0)
    (sampleRun.getD 0 blankQuestion) (by decide)).2 rfl
    ((sampleRun.getD 0 blankQuestion).options.getD 3 blankOpt)
    (by decide) (by decide)

/-- A sample text with a causal sentence for the C9 witness. -/
def causalText : List Char := "Heat causes expansion.".data

/-- Witness for C9: on a concrete text with a causal sentence and the
all-empty entity set, the cause-effect branch yields a non-empty answer. -/
theorem c9_cause_effect_entity_free_witness :
    (splitPunct (selectParagraph causalText 1)).any hasCausalVerb = true ∧
    (generateContextualQuestion .causeEffect ⟨[], [], [], []⟩ causalText 1
      0).correctAnswer ≠ [] :=
  ⟨by decide,
   (c9_cause_effect_entity_free ⟨[], [], [], []⟩ ⟨[], [], [], []⟩ causalText
     1 0 0).2 (by decide)⟩
